import Mathlib

/-!
Verification development for the cf-ddns dynamic DNS updater
(src/cf-ddns.py).  The script reconciles one DNS record with a target
address: it validates or infers the record type from the address family,
fetches all records of the zone, scans them for a record matching the
fully qualified target name, and decides between no-op, update (rec_edit)
and create (rec_new).  When no explicit content is given it first queries
a list of what-is-my-IP services.

The embedding below is shallow and executable.  External collaborators are
modelled by their visible behaviour:
  - socket.inet_pton (the is_ipv4 / is_ipv6 classifiers) is modelled by
    executable parsers of the standard dotted-quad and colon-hex literal
    languages (glibc inet_pton semantics: four decimal octets 0..255
    without leading zeros; colon separated groups of 1..4 hex digits,
    exactly 8 groups, one optional :: compression standing for at least
    one zero group, an optional trailing embedded dotted quad counting as
    two groups);
  - the CloudFlare client is modelled by a Provider record holding the
    outcome of rec_load_all and the outcomes rec_edit / rec_new would
    return if called; every provider interaction of a run is recorded in
    a call trace;
  - requests.get of an IP discovery service is modelled by the pair of
    its URL and an optional response body (none meaning the call raised).

Log statements are traced as (level, message) pairs; print plus exit(1)
is the sysExit outcome; an uncaught Python exception (ValueError from the
type inference, UnboundLocalError from the rec_exists slip on an empty
record list) is a crash outcome.
-/

/-- ASCII decimal digit, as accepted by inet_pton. -/
def isDigitChar (c : Char) : Bool :=
  c == '0' || c == '1' || c == '2' || c == '3' || c == '4' ||
  c == '5' || c == '6' || c == '7' || c == '8' || c == '9'

/-- ASCII hexadecimal digit, as accepted by inet_pton for AF_INET6 groups. -/
def isHexChar (c : Char) : Bool :=
  isDigitChar c ||
  c == 'a' || c == 'b' || c == 'c' || c == 'd' || c == 'e' || c == 'f' ||
  c == 'A' || c == 'B' || c == 'C' || c == 'D' || c == 'E' || c == 'F'

/-- Numeric value of a decimal digit character (10 for anything else). -/
def digitVal : Char → Nat
  | '0' => 0 | '1' => 1 | '2' => 2 | '3' => 3 | '4' => 4
  | '5' => 5 | '6' => 6 | '7' => 7 | '8' => 8 | '9' => 9
  | _ => 10

/-- The decimal digit character of a value below ten. -/
def digitChar : Nat → Char
  | 0 => '0' | 1 => '1' | 2 => '2' | 3 => '3' | 4 => '4'
  | 5 => '5' | 6 => '6' | 7 => '7' | 8 => '8' | 9 => '9'
  | _ => '*'

/-- Value of a digit string read most significant first. -/
def digitsToNat (l : List Char) : Nat :=
  l.foldl (fun n c => 10 * n + digitVal c) 0

/-- Canonical decimal digits of a natural number (no leading zeros). -/
def natDigits (n : Nat) : List Char :=
  if _h : n < 10 then [digitChar n]
  else natDigits (n / 10) ++ [digitChar (n % 10)]
decreasing_by exact Nat.div_lt_self (by omega) (by omega)

/-- Split a character list on a separator; mirrors how inet_pton cuts the
input at dots or colons.  Always returns at least one (possibly empty)
token. -/
def splitOnChar (sep : Char) : List Char → List (List Char)
  | [] => [[]]
  | c :: cs =>
    if c = sep then [] :: splitOnChar sep cs
    else
      match splitOnChar sep cs with
      | [] => [[c]]
      | g :: gs => (c :: g) :: gs

/-- Join token lists with a separator; inverse of splitOnChar. -/
def joinChar (sep : Char) : List (List Char) → List Char
  | [] => []
  | [t] => t
  | t :: ts => t ++ sep :: joinChar sep ts

/-- One dotted-quad part as inet_pton(AF_INET) accepts it: nonempty, all
decimal digits, value at most 255, and no leading zero (a part starting
with 0 must be exactly the single digit 0). -/
def isOctet (p : List Char) : Bool :=
  !p.isEmpty && p.all isDigitChar && decide (digitsToNat p ≤ 255) &&
  (decide (p.length = 1) || !(p.headD ' ' == '0'))

/-- Model of socket.inet_pton(AF_INET) acceptance: exactly four octet
parts separated by dots. -/
def pton4 (l : List Char) : Bool :=
  match splitOnChar '.' l with
  | [a, b, c, d] => isOctet a && isOctet b && isOctet c && isOctet d
  | _ => false

/-- is_ipv4 of src/cf-ddns.py: socket.inet_pton(AF_INET, s) wrapped in
try/except, truthy exactly when the literal parses. -/
def is_ipv4 (s : String) : Bool := pton4 s.data

/-- One colon-hex group: one to four hexadecimal digits. -/
def isHexGroup (g : List Char) : Bool :=
  !g.isEmpty && decide (g.length ≤ 4) && g.all isHexChar

/-- Weight of a colon separated token run in 16-bit units: each hex group
counts one, a trailing embedded dotted quad counts two.  none if some
token is neither. -/
def groupSeqWeight : List (List Char) → Option Nat
  | [] => some 0
  | [t] =>
    if isHexGroup t then some 1
    else if pton4 t then some 2
    else none
  | t :: t2 :: ts =>
    if isHexGroup t then (groupSeqWeight (t2 :: ts)).map (· + 1) else none

/-- Accept what follows a :: compression marker, k being the number of
groups before the marker: either nothing (one trailing empty token), or a
run of nonempty tokens forming groups, with total weight at most 7 so the
compression stands for at least one zero group. -/
def restOK (k : Nat) : List (List Char) → Bool
  | [] => false
  | [t] =>
    if t.isEmpty then decide (k ≤ 7)
    else
      match groupSeqWeight [t] with
      | some w => decide (k + w ≤ 7)
      | none => false
  | t :: t2 :: ts =>
    !t.isEmpty && (t2 :: ts).all (fun u => !u.isEmpty) &&
    (match groupSeqWeight (t :: t2 :: ts) with
     | some w => decide (k + w ≤ 7)
     | none => false)

/-- Token level colon-hex acceptance, on the tokens obtained by splitting
at every colon.  Without a compression marker (no empty token) the weight
must be exactly 8; with one, the leading tokens are hex groups, the
marker is a double colon, and restOK bounds the total weight. -/
def pton6toks (ts : List (List Char)) : Bool :=
  match ts.dropWhile (fun t => !t.isEmpty) with
  | [] => groupSeqWeight ts == some 8
  | _ :: rest =>
    let A := ts.takeWhile (fun t => !t.isEmpty)
    if A.isEmpty then
      match rest with
      | [] :: residue => restOK 0 residue
      | _ => false
    else
      A.all isHexGroup && restOK A.length rest

/-- Model of socket.inet_pton(AF_INET6) acceptance. -/
def pton6 (l : List Char) : Bool :=
  pton6toks (splitOnChar ':' l)

/-- is_ipv6 of src/cf-ddns.py: socket.inet_pton(AF_INET6, s) wrapped in
try/except, truthy exactly when the literal parses. -/
def is_ipv6 (s : String) : Bool := pton6 s.data

/-- Modelled from the spec: a valid dotted-quad IPv4 literal is four
decimal numbers between 0 and 255 joined by dots, each written in
canonical decimal (no leading zeros). -/
def IsDottedQuadLit (l : List Char) : Prop :=
  ∃ a b c d : Nat, a ≤ 255 ∧ b ≤ 255 ∧ c ≤ 255 ∧ d ≤ 255 ∧
    l = natDigits a ++ '.' :: (natDigits b ++ '.' :: (natDigits c ++ '.' :: natDigits d))

/-- Modelled from the spec: a valid colon-hex IPv6 literal is the colon
separated join of a token sequence forming the standard notation (groups
of 1..4 hex digits, one optional :: compression, an optional trailing
embedded dotted quad), no token containing a colon. -/
def IsColonHexLit (l : List Char) : Prop :=
  ∃ ts : List (List Char), ts ≠ [] ∧ (∀ t ∈ ts, ':' ∉ t) ∧
    pton6toks ts = true ∧ l = joinChar ':' ts

/-- A DNS record as returned by rec_load_all (keys rec_id, name, type,
content, service_mode; type is named rtype here since type is reserved). -/
structure DNSRecord where
  rec_id : String
  name : String
  rtype : String
  content : String
  service_mode : String
deriving DecidableEq, Repr

/-- Outcomes of the provider client calls a run would make: rec_load_all
either returns the record list or raises an APIError message; rec_edit
and rec_new return a response body or raise.  One fixed outcome per
operation models one run (the zone is fetched identically each
iteration). -/
structure Provider where
  loadRes : Except String (List DNSRecord)
  editRes : Except String String
  newRes : Except String String
deriving Repr

/-- Every outbound network call a run performs, in order. -/
inductive CallEv where
  | httpGet (url : String)
  | recLoadAll (domain : String)
  | recEdit (domain rtype rec_id : String) (rec_name : Option String) (content cf_mode : String)
  | recNew (domain rtype content name cf_mode : String)
deriving DecidableEq, Repr

/-- Logging levels the script uses on its logger. -/
inductive LogLevel where
  | debug
  | info
  | error
deriving DecidableEq, Repr

/-- How one iteration of the modify_record loop ends.  ok means the
iteration fell through normally; sysExit is print(msg) plus exit(1);
valueError is the uncaught ValueError of the type inference; unboundLocal
is the UnboundLocalError raised when rec_exists is read though the record
loop never ran; apiError is a raised cloudflare APIError. -/
inductive StepRes where
  | ok
  | sysExit (msg : String)
  | valueError (msg : String)
  | unboundLocal
  | apiError (e : String)
deriving DecidableEq, Repr

/-- Calls made, log lines written and result of a (partial) run. -/
structure Trace where
  calls : List CallEv
  logs : List (LogLevel × String)
  res : StepRes
deriving DecidableEq, Repr

/-- Lines 83-99 of modify_record: with an explicit record type A the
address must not be IPv6 and must be IPv4, symmetrically for AAAA; any
violation prints a message and exits.  Other record types are not
checked. -/
def validateAddr (rec_type dest_addr : String) : Option String :=
  if rec_type = "A" then
    if is_ipv6 dest_addr then some (dest_addr ++ " is an IPv6 address. Use --type AAAA.")
    else if !is_ipv4 dest_addr then some (dest_addr ++ " is not a valid IPv4 address.")
    else none
  else if rec_type = "AAAA" then
    if is_ipv4 dest_addr then some (dest_addr ++ " is an IPv4 address. Use --type A.")
    else if !is_ipv6 dest_addr then some (dest_addr ++ " is not a valid IPv6 address.")
    else none
  else none

/-- Lines 101-108: rtype is the given record type, or, when that is empty
(argparse default), A or AAAA inferred from the address family, else an
uncaught ValueError. -/
def inferRtype (rec_type dest_addr : String) : Except String String :=
  if rec_type ≠ "" then Except.ok rec_type
  else if is_ipv4 dest_addr then Except.ok "A"
  else if is_ipv6 dest_addr then Except.ok "AAAA"
  else Except.error "Unable to determine record type. Please add the --type argument."

/-- Lines 117-131: the scan over the fetched records.  The first
component models the rec_exists local: none when the loop body never ran
(the variable stays unbound), some true after the identical-content
break, some false otherwise.  The second is rec_id, set just before the
type-match break.  A record whose name matches but whose content and
type both differ does not stop the scan. -/
def scanRecords (subdom dest_addr rtype : String) : List DNSRecord → Option Bool × Option String
  | [] => (none, none)
  | r :: rest =>
    if r.name = subdom ∧ r.content = dest_addr then (some true, none)
    else if r.name = subdom ∧ r.rtype = rtype then (some false, some r.rec_id)
    else
      match rest with
      | [] => (some false, none)
      | r2 :: rest2 => scanRecords subdom dest_addr rtype (r2 :: rest2)

/-- Lines 141-146: the create branch, taken when rec_id is falsy (None or
the empty string). -/
def createTrace (prov : Provider) (subdom domain rtype cf_mode dest_addr : String)
    (pre : List (LogLevel × String)) : Trace :=
  match prov.newRes with
  | Except.error e =>
    ⟨[CallEv.recLoadAll domain, CallEv.recNew domain rtype dest_addr subdom cf_mode],
     pre ++ [(LogLevel.debug, "The record does not exist, adding it...")],
     StepRes.apiError e⟩
  | Except.ok resp =>
    ⟨[CallEv.recLoadAll domain, CallEv.recNew domain rtype dest_addr subdom cf_mode],
     pre ++ [(LogLevel.debug, "The record does not exist, adding it..."),
             (LogLevel.info, "Added new record: " ++ subdom ++ " " ++ rtype ++ " " ++ dest_addr),
             (LogLevel.debug, "Response from CloudFlare: " ++ resp)],
     StepRes.ok⟩

/-- One iteration of the modify_record loop (lines 82-146) for one
destination address: validate, infer the type, fetch the zone, scan, and
decide no-op, edit or create.  The edit call passes rec_name, which the
code initialises to None and never assigns. -/
def reconcileAddr (prov : Provider) (subdom domain rec_type cf_mode dest_addr : String) : Trace :=
  match validateAddr rec_type dest_addr with
  | some msg => ⟨[], [], StepRes.sysExit msg⟩
  | none =>
    match inferRtype rec_type dest_addr with
    | Except.error m => ⟨[], [], StepRes.valueError m⟩
    | Except.ok rtype =>
      let dbg1 : LogLevel × String :=
        (LogLevel.debug, "Domain: " ++ domain ++ ", subdomain: " ++ subdom ++
          ", IP address: " ++ dest_addr ++ ", record type: " ++ rtype ++
          ", service mode: " ++ cf_mode)
      match prov.loadRes with
      | Except.error e => ⟨[CallEv.recLoadAll domain], [dbg1], StepRes.apiError e⟩
      | Except.ok records =>
        let dbg2 : LogLevel × String := (LogLevel.debug, domain ++ " records: fetched")
        match scanRecords subdom dest_addr rtype records with
        | (none, _) => ⟨[CallEv.recLoadAll domain], [dbg1, dbg2], StepRes.unboundLocal⟩
        | (some true, _) =>
          ⟨[CallEv.recLoadAll domain],
           [dbg1, dbg2, (LogLevel.debug, "Identical record already exists.")], StepRes.ok⟩
        | (some false, some rid) =>
          if rid = "" then
            createTrace prov subdom domain rtype cf_mode dest_addr [dbg1, dbg2]
          else
            match prov.editRes with
            | Except.error e =>
              ⟨[CallEv.recLoadAll domain, CallEv.recEdit domain rtype rid none dest_addr cf_mode],
               [dbg1, dbg2, (LogLevel.info, "Found existing record with id: " ++ rid)],
               StepRes.apiError e⟩
            | Except.ok resp =>
              ⟨[CallEv.recLoadAll domain, CallEv.recEdit domain rtype rid none dest_addr cf_mode],
               [dbg1, dbg2, (LogLevel.info, "Found existing record with id: " ++ rid),
                (LogLevel.info, "Updated record: " ++ subdom ++ " " ++ rtype ++ " " ++ dest_addr),
                (LogLevel.debug, "Response from CloudFlare: " ++ resp)],
               StepRes.ok⟩
        | (some false, none) =>
          createTrace prov subdom domain rtype cf_mode dest_addr [dbg1, dbg2]

/-- modify_record (lines 79-146): the loop over dest_addrs.  A sysExit,
uncaught exception or APIError aborts the loop; otherwise iterations
accumulate. -/
def modify_record (prov : Provider) (subdom domain rec_type cf_mode : String) :
    List String → Trace
  | [] => ⟨[], [], StepRes.ok⟩
  | a :: rest =>
    let t := reconcileAddr prov subdom domain rec_type cf_mode a
    match t.res with
    | StepRes.ok =>
      let t2 := modify_record prov subdom domain rec_type cf_mode rest
      ⟨t.calls ++ t2.calls, t.logs ++ t2.logs, t2.res⟩
    | _ => t

/-- Python str.strip: drop whitespace at both ends. -/
def strip (s : String) : String :=
  String.mk (((s.data.dropWhile Char.isWhitespace).reverse.dropWhile Char.isWhitespace).reverse)

/-- get_external_ip (lines 149-160), accumulator form: every service is
queried; a raised request (body none) is swallowed; a nonempty stripped
body is added to the set of addresses (modelled as a list without
duplicates, in first-seen order). -/
def get_external_ip_go (ips : List String) :
    List (String × Option String) → List CallEv × List String
  | [] => ([], ips)
  | (url, r) :: rest =>
    let ips2 :=
      match r with
      | none => ips
      | some body =>
        let ip := strip body
        if ip ≠ "" ∧ ip ∉ ips then ips ++ [ip] else ips
    let out := get_external_ip_go ips2 rest
    (CallEv.httpGet url :: out.1, out.2)

/-- get_external_ip on an initially empty set. -/
def get_external_ip (services : List (String × Option String)) :
    List CallEv × List String :=
  get_external_ip_go [] services

/-- Lines 280-288: the fully qualified target name.  A falsy (empty)
subdomain argument means the zone itself; a subdomain already ending in
.domain or equal to the domain is used as is; otherwise the domain is
appended. -/
def subdomainFQ (subdomain domain : String) : String :=
  if subdomain ≠ "" then
    if subdomain.endsWith ("." ++ domain) then subdomain
    else if subdomain = domain then subdomain
    else subdomain ++ "." ++ domain
  else domain

/-- Lines 291-293: the value modify_record iterates over.  An explicit
(truthy) --content value is the plain argparse string, so iteration is
over its characters, each a one character string; otherwise it is the
set of discovered addresses. -/
def destAddrs (dest_addr_arg : String) (services : List (String × Option String)) :
    List String :=
  if dest_addr_arg ≠ "" then dest_addr_arg.data.map String.singleton
  else (get_external_ip services).2

/-- How the process ends: normal is falling off the end of the script
(exit status 0); exitCode1 is exit(1) after printing msg; crash is an
uncaught exception (nonzero status, traceback). -/
inductive RunExit where
  | normal
  | exitCode1 (msg : String)
  | crash (msg : String)
deriving DecidableEq, Repr

/-- True exactly for the exit(1) outcome. -/
def RunExit.isFatal : RunExit → Bool
  | RunExit.exitCode1 _ => true
  | _ => false

/-- Calls, logs and exit of one whole process invocation. -/
structure RunTrace where
  calls : List CallEv
  logs : List (LogLevel × String)
  exit : RunExit
deriving DecidableEq, Repr

/-- The --update branch of __main__ (lines 279-302): resolve the target
name and addresses (logging an error, without aborting, when discovery
found none), run modify_record, and catch only cloudflare APIError,
which is logged and then the script ends normally. -/
def updateRun (prov : Provider) (domain subdomain rec_type cf_mode dest_addr_arg : String)
    (services : List (String × Option String)) : RunTrace :=
  let subdom := subdomainFQ subdomain domain
  let preCalls := if dest_addr_arg ≠ "" then [] else (get_external_ip services).1
  let addrs := destAddrs dest_addr_arg services
  let preLogs : List (LogLevel × String) :=
    if dest_addr_arg = "" ∧ addrs = [] then
      [(LogLevel.error, "Sorry, can not do anything without the external IP address. Please specify an IP address manually or make sure the IP resolution service(s) work as expected.")]
    else []
  let t := modify_record prov subdom domain rec_type cf_mode addrs
  match t.res with
  | StepRes.ok => ⟨preCalls ++ t.calls, preLogs ++ t.logs, RunExit.normal⟩
  | StepRes.sysExit m => ⟨preCalls ++ t.calls, preLogs ++ t.logs, RunExit.exitCode1 m⟩
  | StepRes.valueError m =>
    ⟨preCalls ++ t.calls, preLogs ++ t.logs, RunExit.crash ("ValueError: " ++ m)⟩
  | StepRes.unboundLocal =>
    ⟨preCalls ++ t.calls, preLogs ++ t.logs,
     RunExit.crash "UnboundLocalError: local variable rec_exists referenced before assignment"⟩
  | StepRes.apiError e =>
    ⟨preCalls ++ t.calls,
     preLogs ++ t.logs ++ [(LogLevel.error, "CloudFlare API responded with error: " ++ e)],
     RunExit.normal⟩

/-- The --list branch of __main__ (line 277): get_all_records then a pure
pretty print.  It sits outside the try block, so a raised APIError is an
uncaught exception. -/
def listRun (prov : Provider) (domain : String) : RunTrace :=
  match prov.loadRes with
  | Except.error e =>
    ⟨[CallEv.recLoadAll domain], [], RunExit.crash ("cloudflare.CloudFlare.APIError: " ++ e)⟩
  | Except.ok _ => ⟨[CallEv.recLoadAll domain], [], RunExit.normal⟩

/-- Recognises a rec_new provider call. -/
def isNewCall : CallEv → Bool
  | CallEv.recNew _ _ _ _ _ => true
  | _ => false

/-- Recognises a rec_edit provider call. -/
def isEditCall : CallEv → Bool
  | CallEv.recEdit _ _ _ _ _ _ => true
  | _ => false

/-- Recognises a rec_load_all provider call. -/
def isLoadCall : CallEv → Bool
  | CallEv.recLoadAll _ => true
  | _ => false

/-- Any provider API call (everything except the IP discovery GETs). -/
def isProviderCall (c : CallEv) : Bool :=
  isLoadCall c || isEditCall c || isNewCall c

/-- A provider whose three operations all succeed, returning the given
record list and fixed response bodies. -/
def provOf (records : List DNSRecord) : Provider :=
  ⟨Except.ok records, Except.ok "edit-response", Except.ok "new-response"⟩

/-- A provider whose rec_load_all raises an APIError. -/
def provLoadErr : Provider :=
  ⟨Except.error "E_UNAUTH", Except.ok "edit-response", Except.ok "new-response"⟩

/-- Fixture: a record holding the target name with record type TXT. -/
def recTypeOther : DNSRecord :=
  ⟨"id1", "home.example.com", "TXT", "203.0.113.5", "0"⟩

/-- Fixture: a type A record at the target name with stale content. -/
def recStaleA : DNSRecord :=
  ⟨"id1", "home.example.com", "A", "203.0.113.5", "0"⟩

/-- Fixture: a type A record at the target name whose content already
equals the desired address. -/
def recFreshA : DNSRecord :=
  ⟨"id2", "home.example.com", "A", "203.0.113.9", "0"⟩

/-- Fixture: a stale type A record at the target name whose rec_id is the
empty string, which the falsy rec_id test of line 134 sends to the create
branch. -/
def recEmptyId : DNSRecord :=
  ⟨"", "home.example.com", "A", "203.0.113.5", "0"⟩

/-- Fixture: discovery services where the first raises and the second
returns a usable body. -/
def svcsSecondOK : List (String × Option String) :=
  [("https://api.ipify.org", none), ("https://icanhazip.com", some "198.51.100.7\n")]

/-- Fixture: discovery services where the first raises and the second
returns only whitespace, so no usable address is found. -/
def svcsAllFail : List (String × Option String) :=
  [("https://api.ipify.org", none), ("https://icanhazip.com", some " \n")]

/-! Lemmas about the record scan of modify_record. -/

theorem scan_head_noop (subdom dest rtype : String) (r : DNSRecord) (rest : List DNSRecord)
    (hname : r.name = subdom) (hcont : r.content = dest) :
    scanRecords subdom dest rtype (r :: rest) = (some true, none) := by
  cases rest <;> simp [scanRecords, hname, hcont]

theorem scan_head_edit (subdom dest rtype : String) (r : DNSRecord) (rest : List DNSRecord)
    (hname : r.name = subdom) (hcont : r.content ≠ dest) (htype : r.rtype = rtype) :
    scanRecords subdom dest rtype (r :: rest) = (some false, some r.rec_id) := by
  cases rest <;> simp [scanRecords, hname, hcont, htype]

theorem scan_skip_head (subdom dest rtype : String) (r : DNSRecord) (rest : List DNSRecord)
    (h : ¬(r.name = subdom ∧ (r.content = dest ∨ r.rtype = rtype))) (hne : rest ≠ []) :
    scanRecords subdom dest rtype (r :: rest) = scanRecords subdom dest rtype rest := by
  obtain ⟨r2, rest2, rfl⟩ : ∃ r2 rest2, rest = r2 :: rest2 := by
    cases rest with
    | nil => exact absurd rfl hne
    | cons a b => exact ⟨a, b, rfl⟩
  have h1 : ¬(r.name = subdom ∧ r.content = dest) := fun hc => h ⟨hc.1, Or.inl hc.2⟩
  have h2 : ¬(r.name = subdom ∧ r.rtype = rtype) := fun hc => h ⟨hc.1, Or.inr hc.2⟩
  simp only [scanRecords, if_neg h1, if_neg h2]

theorem scan_skip_pre (subdom dest rtype : String) (pre rest : List DNSRecord)
    (hpre : ∀ p ∈ pre, ¬(p.name = subdom ∧ (p.content = dest ∨ p.rtype = rtype)))
    (hne : rest ≠ []) :
    scanRecords subdom dest rtype (pre ++ rest) = scanRecords subdom dest rtype rest := by
  induction pre with
  | nil => rfl
  | cons p ps ih =>
    have hne2 : ps ++ rest ≠ [] := by
      intro hc
      rw [List.append_eq_nil] at hc
      exact hne hc.2
    have step : scanRecords subdom dest rtype ((p :: ps) ++ rest)
        = scanRecords subdom dest rtype (ps ++ rest) :=
      scan_skip_head subdom dest rtype p (ps ++ rest) (hpre p (by simp)) hne2
    rw [step, ih (fun q hq => hpre q (by simp [hq]))]

theorem scan_none (subdom dest rtype : String) (l : List DNSRecord)
    (h : ∀ r ∈ l, ¬(r.name = subdom ∧ (r.content = dest ∨ r.rtype = rtype)))
    (hne : l ≠ []) :
    scanRecords subdom dest rtype l = (some false, none) := by
  induction l with
  | nil => exact absurd rfl hne
  | cons r rest ih =>
    cases rest with
    | nil =>
      have h1 : ¬(r.name = subdom ∧ r.content = dest) :=
        fun hc => h r (by simp) ⟨hc.1, Or.inl hc.2⟩
      have h2 : ¬(r.name = subdom ∧ r.rtype = rtype) :=
        fun hc => h r (by simp) ⟨hc.1, Or.inr hc.2⟩
      simp only [scanRecords, if_neg h1, if_neg h2]
    | cons r2 rest2 =>
      rw [scan_skip_head subdom dest rtype r (r2 :: rest2) (h r (by simp)) (by simp)]
      exact ih (fun q hq => h q (by simp [hq])) (by simp)

theorem scan_cases (subdom dest rtype : String) (l : List DNSRecord)
    (hids : ∀ r ∈ l, r.rec_id ≠ "")
    (hex : ∃ r ∈ l, r.name = subdom ∧ (r.content = dest ∨ r.rtype = rtype)) :
    scanRecords subdom dest rtype l = (some true, none) ∨
    ∃ i, i ≠ "" ∧ scanRecords subdom dest rtype l = (some false, some i) := by
  induction l with
  | nil =>
    obtain ⟨r, hr, _⟩ := hex
    simp at hr
  | cons r rest ih =>
    by_cases h1 : r.name = subdom ∧ r.content = dest
    · exact Or.inl (scan_head_noop subdom dest rtype r rest h1.1 h1.2)
    · by_cases h2 : r.name = subdom ∧ r.rtype = rtype
      · refine Or.inr ⟨r.rec_id, hids r (by simp), ?_⟩
        exact scan_head_edit subdom dest rtype r rest h2.1 (fun hc => h1 ⟨h2.1, hc⟩) h2.2
      · have hnm : ¬(r.name = subdom ∧ (r.content = dest ∨ r.rtype = rtype)) := by
          rintro ⟨hn, hco | ht⟩
          · exact h1 ⟨hn, hco⟩
          · exact h2 ⟨hn, ht⟩
        have hex2 : ∃ q ∈ rest, q.name = subdom ∧ (q.content = dest ∨ q.rtype = rtype) := by
          obtain ⟨q, hq, hm⟩ := hex
          rcases List.mem_cons.mp hq with rfl | hq2
          · exact absurd hm hnm
          · exact ⟨q, hq2, hm⟩
        have hne2 : rest ≠ [] := by
          rintro rfl
          obtain ⟨q, hq, _⟩ := hex2
          simp at hq
        rw [scan_skip_head subdom dest rtype r rest hnm hne2]
        exact ih (fun q hq => hids q (by simp [hq])) hex2

/-- Claim C1 counterexample: the fetched record set holds a record whose
name equals the target name (type TXT, differing content), yet the
reconciler issues a rec_new call for the same name, so the decision is
neither no-op nor update; likewise when the name and type both match but
the record identifier is the empty string (falsy at line 134). -/
theorem c1_counterexample :
    (recTypeOther.name = "home.example.com" ∧
      (reconcileAddr (provOf [recTypeOther]) "home.example.com" "example.com" "A" "0"
        "203.0.113.9").calls.any isNewCall = true) ∧
    (recEmptyId.name = "home.example.com" ∧ recEmptyId.rtype = "A" ∧
      (reconcileAddr (provOf [recEmptyId]) "home.example.com" "example.com" "A" "0"
        "203.0.113.9").calls.any isNewCall = true) := by
  exact ⟨⟨rfl, by decide⟩, ⟨rfl, rfl, by decide⟩⟩

/-- Claim C1 (amended): assuming every fetched record carries a nonempty
identifier, whenever the fetched record set contains a record whose name
equals the target name and whose content equals the desired content or
whose record type equals the desired type, the decision is no-op or
update and the provider create operation is never called.  (A record
matching by name alone, with both content and type differing, does not
prevent a create.) -/
theorem c1_no_duplicate_create (prov : Provider)
    (subdom domain rec_type cf_mode dest rtype : String) (records : List DNSRecord)
    (hload : prov.loadRes = Except.ok records)
    (hids : ∀ r ∈ records, r.rec_id ≠ "")
    (hex : ∃ r ∈ records, r.name = subdom ∧ (r.content = dest ∨ r.rtype = rtype))
    (hinf : inferRtype rec_type dest = Except.ok rtype) :
    (reconcileAddr prov subdom domain rec_type cf_mode dest).calls.any isNewCall = false := by
  unfold reconcileAddr
  cases hval : validateAddr rec_type dest with
  | some msg => simp
  | none =>
    rw [hinf, hload]
    rcases scan_cases subdom dest rtype records hids hex with hs | ⟨i, hi, hs⟩
    · simp [hs, isNewCall]
    · cases he : prov.editRes <;> simp [hs, hi, he, isNewCall]

/-- Claim C1 witness: the amended theorem applied to a concrete run with
one stale type A record at the target name. -/
theorem c1_witness :
    ((∀ r ∈ [recStaleA], r.rec_id ≠ "") ∧
     (∃ r ∈ [recStaleA], r.name = "home.example.com" ∧
        (r.content = "203.0.113.9" ∨ r.rtype = "A"))) ∧
    (reconcileAddr (provOf [recStaleA]) "home.example.com" "example.com" "A" "0"
      "203.0.113.9").calls.any isNewCall = false :=
  ⟨⟨by decide, by decide⟩,
   c1_no_duplicate_create (provOf [recStaleA]) "home.example.com" "example.com" "A" "0"
     "203.0.113.9" "A" [recStaleA] rfl (by decide) (by decide) rfl⟩

/-- Claim C2 counterexample: with one record matching the target name
with differing content, reconciliation does not always perform one edit
call: if the record type also differs (TXT versus desired A) a create is
issued and no edit at all; when an edit is issued for a name and type
match, its name argument is none (the rec_name local is never assigned),
not the desired name; and a matching record whose identifier is the
empty string is falsy at line 134 and also falls through to create. -/
theorem c2_counterexample :
    (recTypeOther.name = "home.example.com" ∧ recTypeOther.content ≠ "203.0.113.9" ∧
      (reconcileAddr (provOf [recTypeOther]) "home.example.com" "example.com" "A" "0"
        "203.0.113.9").calls.any isEditCall = false) ∧
    ((reconcileAddr (provOf [recStaleA]) "home.example.com" "example.com" "A" "0"
        "203.0.113.9").calls =
      [CallEv.recLoadAll "example.com",
       CallEv.recEdit "example.com" "A" "id1" none "203.0.113.9" "0"]) ∧
    (recEmptyId.rtype = "A" ∧
      (reconcileAddr (provOf [recEmptyId]) "home.example.com" "example.com" "A" "0"
        "203.0.113.9").calls.any isEditCall = false) := by
  exact ⟨⟨rfl, by decide, by decide⟩, by decide, rfl, by decide⟩

/-- Claim C2 (amended): when the first record of the fetched set matching
the target name by content or by type is one whose type equals the
desired type and whose content differs, and its identifier is nonempty,
reconciliation performs exactly one edit call, referencing that record
identifier and carrying the desired type, content and service-mode flag;
the name argument of the call is none, since the rec_name local is never
assigned. -/
theorem c2_one_edit_call (prov : Provider)
    (subdom domain rec_type cf_mode dest rtype : String)
    (pre : List DNSRecord) (r : DNSRecord) (post : List DNSRecord)
    (hload : prov.loadRes = Except.ok (pre ++ r :: post))
    (hpre : ∀ p ∈ pre, ¬(p.name = subdom ∧ (p.content = dest ∨ p.rtype = rtype)))
    (hname : r.name = subdom) (hcont : r.content ≠ dest) (htype : r.rtype = rtype)
    (hid : r.rec_id ≠ "")
    (hval : validateAddr rec_type dest = none)
    (hinf : inferRtype rec_type dest = Except.ok rtype) :
    (reconcileAddr prov subdom domain rec_type cf_mode dest).calls =
      [CallEv.recLoadAll domain, CallEv.recEdit domain rtype r.rec_id none dest cf_mode] := by
  have hscan : scanRecords subdom dest rtype (pre ++ r :: post) = (some false, some r.rec_id) := by
    rw [scan_skip_pre subdom dest rtype pre (r :: post) hpre (by simp)]
    exact scan_head_edit subdom dest rtype r post hname hcont htype
  unfold reconcileAddr
  rw [hval, hinf, hload]
  cases he : prov.editRes <;> simp [hscan, hid, he]

/-- Claim C2 witness: the amended theorem applied to a concrete run with
one stale type A record at the target name. -/
theorem c2_witness :
    (recStaleA.name = "home.example.com" ∧ recStaleA.content ≠ "203.0.113.9" ∧
      recStaleA.rtype = "A" ∧ recStaleA.rec_id ≠ "") ∧
    (reconcileAddr (provOf [recStaleA]) "home.example.com" "example.com" "A" "0"
      "203.0.113.9").calls =
      [CallEv.recLoadAll "example.com",
       CallEv.recEdit "example.com" "A" recStaleA.rec_id none "203.0.113.9" "0"] :=
  ⟨⟨rfl, by decide, rfl, by decide⟩,
   c2_one_edit_call (provOf [recStaleA]) "home.example.com" "example.com" "A" "0"
     "203.0.113.9" "A" [] recStaleA [] rfl (by simp) rfl (by decide) rfl (by decide)
     rfl rfl⟩

/-- Claim C5: the code raises UnboundLocalError on the empty record set.
At the concrete failing input (explicit type A, address 203.0.113.9, the
provider returning an empty record list) reconciliation neither creates
nor edits: the rec_exists local was never assigned, so reading it after
the loop raises, and the run crashes instead of issuing the create call
the claim (and the spec) requires. -/
theorem c5_unbound_on_empty :
    (reconcileAddr (provOf []) "home.example.com" "example.com" "A" "0"
      "203.0.113.9").res = StepRes.unboundLocal ∧
    (reconcileAddr (provOf []) "home.example.com" "example.com" "A" "0"
      "203.0.113.9").calls.any (fun c => isNewCall c || isEditCall c) = false ∧
    (updateRun (provOf []) "example.com" "home" "A" "0" "" svcsSecondOK).exit =
      RunExit.crash "UnboundLocalError: local variable rec_exists referenced before assignment" := by
  exact ⟨by decide, by decide, by decide⟩

/-- Claim C6 counterexample: the fetched set contains a record whose name
equals the target and whose content already equals the desired content
(the second record), yet reconciliation is not a no-op: the scan stops at
the earlier stale record matching by name and type and issues an edit. -/
theorem c6_counterexample :
    ((provOf [recStaleA, recFreshA]).loadRes =
        Except.ok [recStaleA, recFreshA] ∧
      recFreshA.name = "home.example.com" ∧ recFreshA.content = "203.0.113.9") ∧
    (reconcileAddr (provOf [recStaleA, recFreshA]) "home.example.com" "example.com" "A" "0"
      "203.0.113.9").calls.any isEditCall = true := by
  exact ⟨⟨rfl, rfl, rfl⟩, by decide⟩

/-- Claim C6 (amended): when the first record of the fetched set matching
the target name by content or by type is one whose content equals the
desired content, reconciliation is a no-op: it completes successfully,
issues no create or edit call (only the fetch), and logs only at debug
level. -/
theorem c6_noop (prov : Provider)
    (subdom domain rec_type cf_mode dest rtype : String)
    (pre : List DNSRecord) (r : DNSRecord) (post : List DNSRecord)
    (hload : prov.loadRes = Except.ok (pre ++ r :: post))
    (hpre : ∀ p ∈ pre, ¬(p.name = subdom ∧ (p.content = dest ∨ p.rtype = rtype)))
    (hname : r.name = subdom) (hcont : r.content = dest)
    (hval : validateAddr rec_type dest = none)
    (hinf : inferRtype rec_type dest = Except.ok rtype) :
    (reconcileAddr prov subdom domain rec_type cf_mode dest).res = StepRes.ok ∧
    (reconcileAddr prov subdom domain rec_type cf_mode dest).calls = [CallEv.recLoadAll domain] ∧
    (reconcileAddr prov subdom domain rec_type cf_mode dest).logs.all
      (fun e => e.1 == LogLevel.debug) = true := by
  have hscan : scanRecords subdom dest rtype (pre ++ r :: post) = (some true, none) := by
    rw [scan_skip_pre subdom dest rtype pre (r :: post) hpre (by simp)]
    exact scan_head_noop subdom dest rtype r post hname hcont
  unfold reconcileAddr
  rw [hval, hinf, hload]
  simp [hscan]

/-- Claim C6 witness: the amended theorem applied to a concrete run whose
only record already carries the desired content. -/
theorem c6_witness :
    (recFreshA.name = "home.example.com" ∧ recFreshA.content = "203.0.113.9") ∧
    (reconcileAddr (provOf [recFreshA]) "home.example.com" "example.com" "A" "0"
      "203.0.113.9").res = StepRes.ok ∧
    (reconcileAddr (provOf [recFreshA]) "home.example.com" "example.com" "A" "0"
      "203.0.113.9").calls = [CallEv.recLoadAll "example.com"] ∧
    (reconcileAddr (provOf [recFreshA]) "home.example.com" "example.com" "A" "0"
      "203.0.113.9").logs.all (fun e => e.1 == LogLevel.debug) = true :=
  ⟨⟨rfl, rfl⟩,
   c6_noop (provOf [recFreshA]) "home.example.com" "example.com" "A" "0"
     "203.0.113.9" "A" [] recFreshA [] rfl (by simp) rfl rfl rfl rfl⟩

/-- Every call get_external_ip makes is an HTTP GET, never a provider
call. -/
theorem gei_all_http (svcs : List (String × Option String)) :
    ∀ (ips : List String) (c : CallEv),
      c ∈ (get_external_ip_go ips svcs).1 → isProviderCall c = false := by
  induction svcs with
  | nil =>
    intro ips c hc
    simp [get_external_ip_go] at hc
  | cons sv rest ih =>
    intro ips c hc
    obtain ⟨url, r⟩ := sv
    cases r with
    | none =>
      have hq : (get_external_ip_go ips ((url, none) :: rest)).1 =
          CallEv.httpGet url :: (get_external_ip_go ips rest).1 := rfl
      rw [hq] at hc
      rcases List.mem_cons.mp hc with rfl | h2
      · rfl
      · exact ih ips c h2
    | some body =>
      have hq : (get_external_ip_go ips ((url, some body) :: rest)).1 =
          CallEv.httpGet url ::
            (get_external_ip_go
              (if strip body ≠ "" ∧ strip body ∉ ips then ips ++ [strip body] else ips)
              rest).1 := rfl
      rw [hq] at hc
      rcases List.mem_cons.mp hc with rfl | h2
      · rfl
      · exact ih _ c h2

/-- Claim C3 counterexample: with no explicit content and both discovery
services failing to produce a usable body, the run logs the error and
performs no provider call, but the process terminates normally with exit
status 0, not the non-zero exit the claim requires. -/
theorem c3_counterexample :
    (updateRun (provOf [recStaleA]) "example.com" "home" "" "0" "" svcsAllFail).exit =
      RunExit.normal ∧
    (updateRun (provOf [recStaleA]) "example.com" "home" "" "0" "" svcsAllFail).logs.any
      (fun e => e.1 == LogLevel.error) = true ∧
    (updateRun (provOf [recStaleA]) "example.com" "home" "" "0" "" svcsAllFail).calls.any
      isProviderCall = false := by
  exact ⟨by decide, by decide, by decide⟩

/-- Claim C3 (amended): for every run in which no explicit content is
given and no IP-discovery service produced a usable nonempty body, the
run logs a clear error and performs no provider mutation, but the error
branch does not abort the run: modify_record is invoked with the empty
address set, does nothing, and the process terminates with exit status
0. -/
theorem c3_resolution_failure (prov : Provider)
    (domain subdomain rec_type cf_mode : String)
    (services : List (String × Option String))
    (hfail : (get_external_ip services).2 = []) :
    (updateRun prov domain subdomain rec_type cf_mode "" services).exit = RunExit.normal ∧
    (updateRun prov domain subdomain rec_type cf_mode "" services).calls.any
      isProviderCall = false ∧
    (updateRun prov domain subdomain rec_type cf_mode "" services).logs.any
      (fun e => e.1 == LogLevel.error) = true := by
  unfold updateRun
  simp only [destAddrs, get_external_ip] at hfail ⊢
  simp [hfail, modify_record, List.any_eq_true]
  intro c hc
  have := gei_all_http services [] c hc
  simp [this]

/-- Claim C3 witness: the amended theorem applied to the concrete failing
services. -/
theorem c3_witness :
    ((get_external_ip svcsAllFail).2 = []) ∧
    ((updateRun (provOf []) "example.com" "home" "" "0" "" svcsAllFail).exit = RunExit.normal ∧
     (updateRun (provOf []) "example.com" "home" "" "0" "" svcsAllFail).calls.any
       isProviderCall = false ∧
     (updateRun (provOf []) "example.com" "home" "" "0" "" svcsAllFail).logs.any
       (fun e => e.1 == LogLevel.error) = true) :=
  ⟨by decide,
   c3_resolution_failure (provOf []) "example.com" "home" "" "0" svcsAllFail (by decide)⟩

/-- Claim C7 counterexample: a provider APIError in a list run is not
caught at the top level and crashes with an unhandled fault, and in an
update run it is caught but the process then ends with exit status 0,
not the non-zero exit of the claimed exit-behavior contract. -/
theorem c7_counterexample :
    (listRun provLoadErr "example.com").exit =
      RunExit.crash "cloudflare.CloudFlare.APIError: E_UNAUTH" ∧
    (updateRun provLoadErr "example.com" "home" "" "0" "" svcsSecondOK).exit =
      RunExit.normal ∧
    (updateRun provLoadErr "example.com" "home" "" "0" "" svcsSecondOK).logs.any
      (fun ev => ev == (LogLevel.error,
        "CloudFlare API responded with error: E_UNAUTH")) = true := by
  exact ⟨by decide, by decide, by decide⟩

/-- Claim C7 (amended): in an update run, a provider APIError raised
during reconciliation (fetch, create or edit) is caught at the top
level, logged at error level, and the process terminates normally with
exit status 0; in a list run a provider APIError from the list operation
is not caught and propagates as an unhandled crash. -/
theorem c7_api_error_handling :
    (∀ (prov : Provider) (domain subdomain rec_type cf_mode arg e : String)
       (services : List (String × Option String)),
       (modify_record prov (subdomainFQ subdomain domain) domain rec_type cf_mode
          (destAddrs arg services)).res = StepRes.apiError e →
       (updateRun prov domain subdomain rec_type cf_mode arg services).exit = RunExit.normal ∧
       (updateRun prov domain subdomain rec_type cf_mode arg services).logs.any
         (fun ev => ev == (LogLevel.error,
           "CloudFlare API responded with error: " ++ e)) = true) ∧
    (∀ (prov : Provider) (domain e : String), prov.loadRes = Except.error e →
       (listRun prov domain).exit = RunExit.crash ("cloudflare.CloudFlare.APIError: " ++ e)) := by
  constructor
  · intro prov domain subdomain rec_type cf_mode arg e services h
    unfold updateRun
    simp [h]
  · intro prov domain e h
    unfold listRun
    rw [h]

/-- Claim C7 witness: the update half of the theorem applied to a
concrete run whose rec_load_all raises. -/
theorem c7_witness :
    ((modify_record provLoadErr (subdomainFQ "home" "example.com") "example.com" "" "0"
        (destAddrs "" svcsSecondOK)).res = StepRes.apiError "E_UNAUTH") ∧
    ((updateRun provLoadErr "example.com" "home" "" "0" "" svcsSecondOK).exit =
        RunExit.normal ∧
     (updateRun provLoadErr "example.com" "home" "" "0" "" svcsSecondOK).logs.any
       (fun ev => ev == (LogLevel.error,
         "CloudFlare API responded with error: E_UNAUTH")) = true) :=
  ⟨by decide,
   c7_api_error_handling.1 provLoadErr "example.com" "home" "" "0" "" "E_UNAUTH"
     svcsSecondOK (by decide)⟩

/-- Claim C8: a raised discovery request is swallowed, the remaining
services are still queried with the same resulting address set; in the
concrete scenario of the spec, the first service raising and the second
returning 198.51.100.7 resolves that address and the run proceeds to a
normal reconciliation of it. -/
theorem c8_failure_swallowed :
    (∀ (url : String) (ips : List String) (rest : List (String × Option String)),
       (get_external_ip_go ips ((url, none) :: rest)).2 = (get_external_ip_go ips rest).2) ∧
    (get_external_ip svcsSecondOK).2 = ["198.51.100.7"] ∧
    (updateRun (provOf [recStaleA]) "example.com" "home" "" "0" "" svcsSecondOK).exit =
      RunExit.normal ∧
    (updateRun (provOf [recStaleA]) "example.com" "home" "" "0" "" svcsSecondOK).calls.any
      (fun c => c == CallEv.recEdit "example.com" "A" "id1" none "198.51.100.7" "0") = true := by
  refine ⟨?_, by decide, by decide, by decide⟩
  intro url ips rest
  rfl

/-- Claim C8 witness: the swallowing equation at the concrete services of
the scenario. -/
theorem c8_witness :
    (get_external_ip_go [] svcsSecondOK).2 =
      (get_external_ip_go [] [("https://icanhazip.com", some "198.51.100.7\n")]).2 :=
  c8_failure_swallowed.1 "https://api.ipify.org" []
    [("https://icanhazip.com", some "198.51.100.7\n")]

/-- Per character behaviour of modify_record on the character list of an
explicit content string: with a record type outside A/AAAA and a record
set with no name match, each character triggers one full fetch plus one
create of that single character as content. -/
theorem mr_per_char (prov : Provider) (tgt domain rec_type cf_mode : String)
    (records : List DNSRecord) (resp : String)
    (hload : prov.loadRes = Except.ok records)
    (hnew : prov.newRes = Except.ok resp)
    (ht1 : rec_type ≠ "") (ht2 : rec_type ≠ "A") (ht3 : rec_type ≠ "AAAA")
    (hne : records ≠ [])
    (hnom : ∀ r ∈ records, r.name ≠ tgt) :
    ∀ l : List Char,
      (modify_record prov tgt domain rec_type cf_mode (l.map String.singleton)).calls =
        l.flatMap (fun c => [CallEv.recLoadAll domain,
          CallEv.recNew domain rec_type (String.singleton c) tgt cf_mode]) ∧
      (modify_record prov tgt domain rec_type cf_mode (l.map String.singleton)).res =
        StepRes.ok := by
  intro l
  induction l with
  | nil => exact ⟨rfl, rfl⟩
  | cons c cs ih =>
    have hval : validateAddr rec_type (String.singleton c) = none := by
      unfold validateAddr
      rw [if_neg ht2, if_neg ht3]
    have hinf : inferRtype rec_type (String.singleton c) = Except.ok rec_type := by
      unfold inferRtype
      rw [if_pos ht1]
    have hscan : scanRecords tgt (String.singleton c) rec_type records = (some false, none) :=
      scan_none tgt (String.singleton c) rec_type records
        (fun r hr hc => hnom r hr hc.1) hne
    have hrec : reconcileAddr prov tgt domain rec_type cf_mode (String.singleton c) =
        ⟨[CallEv.recLoadAll domain,
          CallEv.recNew domain rec_type (String.singleton c) tgt cf_mode],
         (reconcileAddr prov tgt domain rec_type cf_mode (String.singleton c)).logs,
         StepRes.ok⟩ := by
      unfold reconcileAddr
      rw [hval, hinf, hload]
      simp [hscan, createTrace, hnew]
    have hq : modify_record prov tgt domain rec_type cf_mode
        ((c :: cs).map String.singleton) =
        (match (reconcileAddr prov tgt domain rec_type cf_mode (String.singleton c)).res with
         | StepRes.ok =>
           Trace.mk
             ((reconcileAddr prov tgt domain rec_type cf_mode (String.singleton c)).calls ++
               (modify_record prov tgt domain rec_type cf_mode (cs.map String.singleton)).calls)
             ((reconcileAddr prov tgt domain rec_type cf_mode (String.singleton c)).logs ++
               (modify_record prov tgt domain rec_type cf_mode (cs.map String.singleton)).logs)
             (modify_record prov tgt domain rec_type cf_mode (cs.map String.singleton)).res
         | _ => reconcileAddr prov tgt domain rec_type cf_mode (String.singleton c)) := rfl
    rw [hq, hrec]
    simp [ih.1, ih.2]

/-- Claim C4: an explicit --content value is one plain argparse string,
modify_record iterates over it character by character, and with a record
type outside A/AAAA (so that per character validation passes) and no
name match in the fetched set, the run performs one fetch and one create
per character of the value, the created content being that single
character. -/
theorem c4_per_character (prov : Provider)
    (domain subdomain rec_type cf_mode s resp : String)
    (records : List DNSRecord) (services : List (String × Option String))
    (hs : s ≠ "")
    (hload : prov.loadRes = Except.ok records)
    (hnew : prov.newRes = Except.ok resp)
    (ht1 : rec_type ≠ "") (ht2 : rec_type ≠ "A") (ht3 : rec_type ≠ "AAAA")
    (hne : records ≠ [])
    (hnom : ∀ r ∈ records, r.name ≠ subdomainFQ subdomain domain) :
    (updateRun prov domain subdomain rec_type cf_mode s services).calls =
      s.data.flatMap (fun c => [CallEv.recLoadAll domain,
        CallEv.recNew domain rec_type (String.singleton c) (subdomainFQ subdomain domain) cf_mode]) ∧
    (updateRun prov domain subdomain rec_type cf_mode s services).exit = RunExit.normal := by
  have h := mr_per_char prov (subdomainFQ subdomain domain) domain rec_type cf_mode records
    resp hload hnew ht1 ht2 ht3 hne hnom s.data
  unfold updateRun
  simp only [destAddrs]
  simp [hs, h.1, h.2]

/-- Claim C4 witness: a two character explicit content with type TXT is
reconciled twice, once per character, creating the one character records
a and b. -/
theorem c4_witness :
    (("ab" : String) ≠ "" ∧ [recStaleA] ≠ ([] : List DNSRecord) ∧
      (∀ r ∈ [recStaleA], r.name ≠ subdomainFQ "other" "example.com")) ∧
    (updateRun (provOf [recStaleA]) "example.com" "other" "TXT" "0" "ab" []).calls =
      [CallEv.recLoadAll "example.com",
       CallEv.recNew "example.com" "TXT" "a" "other.example.com" "0",
       CallEv.recLoadAll "example.com",
       CallEv.recNew "example.com" "TXT" "b" "other.example.com" "0"] ∧
    (updateRun (provOf [recStaleA]) "example.com" "other" "TXT" "0" "ab" []).exit =
      RunExit.normal := by
  refine ⟨⟨by decide, by decide, by decide⟩, ?_, ?_⟩
  · have h := (c4_per_character (provOf [recStaleA]) "example.com" "other" "TXT" "0" "ab"
      "new-response" [recStaleA] [] (by decide) rfl rfl (by decide) (by decide) (by decide)
      (by decide) (by decide)).1
    rw [h]
    decide
  · exact (c4_per_character (provOf [recStaleA]) "example.com" "other" "TXT" "0" "ab"
      "new-response" [recStaleA] [] (by decide) rfl rfl (by decide) (by decide) (by decide)
      (by decide) (by decide)).2

/-- No single character is a dotted-quad literal. -/
theorem pton4_single (c : Char) : pton4 [c] = false := by
  by_cases hc : c = '.'
  · simp [pton4, splitOnChar, hc]
  · simp [pton4, splitOnChar, hc]

/-- A one token split is never accepted as colon-hex: a lone group or
lone quad has weight below 8. -/
theorem pton6toks_single (t : List Char) (ht : t ≠ []) : pton6toks [t] = false := by
  have hemp : t.isEmpty = false := by
    cases t with
    | nil => exact absurd rfl ht
    | cons a b => rfl
  by_cases h1 : isHexGroup t <;> by_cases h2 : pton4 t <;>
    simp [pton6toks, List.dropWhile, hemp, groupSeqWeight, h1, h2]

/-- No single character is a colon-hex literal. -/
theorem pton6_single (c : Char) : pton6 [c] = false := by
  by_cases hc : c = ':'
  · simp [pton6, splitOnChar, hc]
    decide
  · rw [pton6, show splitOnChar ':' [c] = [[c]] by simp [splitOnChar, hc]]
    exact pton6toks_single [c] (by simp)

/-- A valid IPv4 literal is nonempty. -/
theorem ipv4_ne_empty (s : String) (h : is_ipv4 s = true) : s ≠ "" := by
  intro he
  subst he
  exact absurd h (by decide)

/-- A valid IPv6 literal is nonempty. -/
theorem ipv6_ne_empty (s : String) (h : is_ipv6 s = true) : s ≠ "" := by
  intro he
  subst he
  exact absurd h (by decide)

/-- The singleton of any character fails IPv4 classification. -/
theorem ipv4_singleton (c : Char) : is_ipv4 (String.singleton c) = false :=
  pton4_single c

/-- The singleton of any character fails IPv6 classification. -/
theorem ipv6_singleton (c : Char) : is_ipv6 (String.singleton c) = false :=
  pton6_single c

/-- With explicit type A, the first character of any explicit content
fails validation with the invalid IPv4 message. -/
theorem validateA_singleton (c : Char) :
    validateAddr "A" (String.singleton c) =
      some (String.singleton c ++ " is not a valid IPv4 address.") := by
  unfold validateAddr
  simp [ipv4_singleton c, ipv6_singleton c]

/-- With explicit type AAAA, the first character of any explicit content
fails validation with the invalid IPv6 message. -/
theorem validateAAAA_singleton (c : Char) :
    validateAddr "AAAA" (String.singleton c) =
      some (String.singleton c ++ " is not a valid IPv6 address.") := by
  unfold validateAddr
  simp [ipv4_singleton c, ipv6_singleton c]

/-- Claim C9: with an explicit content value whose address family
contradicts the explicitly requested record type (an IPv6 literal with
type A, or an IPv4 literal with type AAAA), the run exits fatally via
exit(1) from the validation of the first character, before any network
call: the call trace is empty. -/
theorem c9_mismatch_fatal (prov : Provider)
    (domain subdomain rec_type cf_mode s : String)
    (services : List (String × Option String))
    (h : (rec_type = "A" ∧ is_ipv6 s = true) ∨ (rec_type = "AAAA" ∧ is_ipv4 s = true)) :
    (updateRun prov domain subdomain rec_type cf_mode s services).calls = [] ∧
    (updateRun prov domain subdomain rec_type cf_mode s services).exit.isFatal = true := by
  have hs : s ≠ "" := by
    rcases h with ⟨_, h6⟩ | ⟨_, h4⟩
    · exact ipv6_ne_empty s h6
    · exact ipv4_ne_empty s h4
  obtain ⟨c, cs, hd⟩ : ∃ c cs, s.data = c :: cs := by
    cases hq : s.data with
    | nil =>
      exact absurd (String.ext (by simp [hq])) hs
    | cons c cs => exact ⟨c, cs, rfl⟩
  obtain ⟨m, hm⟩ : ∃ m, validateAddr rec_type (String.singleton c) = some m := by
    rcases h with ⟨h1, _⟩ | ⟨h1, _⟩
    · exact ⟨_, by rw [h1]; exact validateA_singleton c⟩
    · exact ⟨_, by rw [h1]; exact validateAAAA_singleton c⟩
  have hrec : reconcileAddr prov (subdomainFQ subdomain domain) domain rec_type cf_mode
      (String.singleton c) = ⟨[], [], StepRes.sysExit m⟩ := by
    unfold reconcileAddr
    rw [hm]
  have hmr : modify_record prov (subdomainFQ subdomain domain) domain rec_type cf_mode
      (s.data.map String.singleton) = ⟨[], [], StepRes.sysExit m⟩ := by
    rw [hd]
    have hq : modify_record prov (subdomainFQ subdomain domain) domain rec_type cf_mode
        ((c :: cs).map String.singleton) =
        (match (reconcileAddr prov (subdomainFQ subdomain domain) domain rec_type cf_mode
            (String.singleton c)).res with
         | StepRes.ok =>
           Trace.mk
             ((reconcileAddr prov (subdomainFQ subdomain domain) domain rec_type cf_mode
                 (String.singleton c)).calls ++
               (modify_record prov (subdomainFQ subdomain domain) domain rec_type cf_mode
                 (cs.map String.singleton)).calls)
             ((reconcileAddr prov (subdomainFQ subdomain domain) domain rec_type cf_mode
                 (String.singleton c)).logs ++
               (modify_record prov (subdomainFQ subdomain domain) domain rec_type cf_mode
                 (cs.map String.singleton)).logs)
             (modify_record prov (subdomainFQ subdomain domain) domain rec_type cf_mode
               (cs.map String.singleton)).res
         | _ => reconcileAddr prov (subdomainFQ subdomain domain) domain rec_type cf_mode
             (String.singleton c)) := rfl
    rw [hq, hrec]
  unfold updateRun
  simp only [destAddrs]
  simp [hs, hmr, RunExit.isFatal]

/-- Claim C9 witness: the concrete scenario of the spec, explicit content
203.0.113.9 with requested type AAAA: fatal exit and empty call trace. -/
theorem c9_witness :
    (("AAAA" = "A" ∧ is_ipv6 "203.0.113.9" = true) ∨
     ("AAAA" = "AAAA" ∧ is_ipv4 "203.0.113.9" = true)) ∧
    ((updateRun (provOf []) "example.com" "home" "AAAA" "0" "203.0.113.9" []).calls = [] ∧
     (updateRun (provOf []) "example.com" "home" "AAAA" "0" "203.0.113.9" []).exit.isFatal =
       true) :=
  ⟨Or.inr ⟨rfl, by decide⟩,
   c9_mismatch_fatal (provOf []) "example.com" "home" "AAAA" "0" "203.0.113.9" []
     (Or.inr ⟨rfl, by decide⟩)⟩

/-! Decimal representation lemmas for the dotted-quad characterization. -/

theorem digitVal_digitChar (d : Nat) (h : d < 10) : digitVal (digitChar d) = d := by
  interval_cases d <;> rfl

theorem isDigitChar_digitChar (d : Nat) (h : d < 10) : isDigitChar (digitChar d) = true := by
  interval_cases d <;> rfl

theorem digit_cases (c : Char) (h : isDigitChar c = true) :
    c = '0' ∨ c = '1' ∨ c = '2' ∨ c = '3' ∨ c = '4' ∨
    c = '5' ∨ c = '6' ∨ c = '7' ∨ c = '8' ∨ c = '9' := by
  simp [isDigitChar] at h
  tauto

theorem digitChar_digitVal (c : Char) (h : isDigitChar c = true) :
    digitChar (digitVal c) = c := by
  rcases digit_cases c h with rfl | rfl | rfl | rfl | rfl | rfl | rfl | rfl | rfl | rfl <;> rfl

theorem digitVal_lt (c : Char) (h : isDigitChar c = true) : digitVal c < 10 := by
  rcases digit_cases c h with rfl | rfl | rfl | rfl | rfl | rfl | rfl | rfl | rfl | rfl <;> decide

theorem digit_ne_dot (c : Char) (h : isDigitChar c = true) : c ≠ '.' := by
  rcases digit_cases c h with rfl | rfl | rfl | rfl | rfl | rfl | rfl | rfl | rfl | rfl <;> decide

theorem digit_ne_colon (c : Char) (h : isDigitChar c = true) : c ≠ ':' := by
  rcases digit_cases c h with rfl | rfl | rfl | rfl | rfl | rfl | rfl | rfl | rfl | rfl <;> decide

theorem digit_eq_zero_of_val_zero (c : Char) (h : isDigitChar c = true)
    (hv : digitVal c = 0) : c = '0' := by
  rcases digit_cases c h with rfl | rfl | rfl | rfl | rfl | rfl | rfl | rfl | rfl | rfl <;>
    simp_all [digitVal]

theorem natDigits_lt (n : Nat) (h : n < 10) : natDigits n = [digitChar n] := by
  unfold natDigits
  rw [dif_pos h]

theorem natDigits_ge (n : Nat) (h : ¬ n < 10) :
    natDigits n = natDigits (n / 10) ++ [digitChar (n % 10)] := by
  conv_lhs => rw [natDigits]
  rw [dif_neg h]

theorem natDigits_ne_nil (n : Nat) : natDigits n ≠ [] := by
  by_cases h : n < 10
  · rw [natDigits_lt n h]
    simp
  · rw [natDigits_ge n h]
    simp

theorem natDigits_all_digits (n : Nat) : ∀ c ∈ natDigits n, isDigitChar c = true := by
  induction n using Nat.strong_induction_on with
  | _ n ih =>
    by_cases h : n < 10
    · rw [natDigits_lt n h]
      intro c hc
      rw [List.mem_singleton] at hc
      subst hc
      exact isDigitChar_digitChar n h
    · rw [natDigits_ge n h]
      intro c hc
      rcases List.mem_append.mp hc with h1 | h2
      · exact ih (n / 10) (Nat.div_lt_self (by omega) (by omega)) c h1
      · rw [List.mem_singleton] at h2
        subst h2
        exact isDigitChar_digitChar (n % 10) (Nat.mod_lt n (by omega))

theorem digitsToNat_append_singleton (l : List Char) (c : Char) :
    digitsToNat (l ++ [c]) = 10 * digitsToNat l + digitVal c := by
  simp [digitsToNat, List.foldl_append]

theorem digitsToNat_natDigits (n : Nat) : digitsToNat (natDigits n) = n := by
  induction n using Nat.strong_induction_on with
  | _ n ih =>
    by_cases h : n < 10
    · rw [natDigits_lt n h]
      show 10 * 0 + digitVal (digitChar n) = n
      rw [digitVal_digitChar n h]
      omega
    · rw [natDigits_ge n h, digitsToNat_append_singleton,
        ih (n / 10) (Nat.div_lt_self (by omega) (by omega)),
        digitVal_digitChar (n % 10) (Nat.mod_lt n (by omega))]
      omega

theorem headD_append_of_ne_nil (l r : List Char) (d : Char) (h : l ≠ []) :
    (l ++ r).headD d = l.headD d := by
  cases l with
  | nil => exact absurd rfl h
  | cons a b => rfl

theorem natDigits_headD_ne_zero (n : Nat) (h : n ≠ 0) : (natDigits n).headD ' ' ≠ '0' := by
  induction n using Nat.strong_induction_on with
  | _ n ih =>
    by_cases hlt : n < 10
    · rw [natDigits_lt n hlt]
      have h1 : 1 ≤ n := by omega
      have h9 : n ≤ 9 := by omega
      interval_cases n <;> decide
    · rw [natDigits_ge n hlt,
        headD_append_of_ne_nil (natDigits (n / 10)) [digitChar (n % 10)] ' '
          (natDigits_ne_nil (n / 10))]
      exact ih (n / 10) (Nat.div_lt_self (by omega) (by omega)) (by omega)

theorem all_zero_of_digitsToNat_zero (l : List Char)
    (hd : ∀ c ∈ l, isDigitChar c = true) (hv : digitsToNat l = 0) :
    ∀ c ∈ l, c = '0' := by
  induction l using List.reverseRecOn with
  | nil => intro c hc; simp at hc
  | append_singleton xs x ih =>
    rw [digitsToNat_append_singleton] at hv
    have hx : digitVal x = 0 := by omega
    have hxs : digitsToNat xs = 0 := by omega
    intro c hc
    rcases List.mem_append.mp hc with h1 | h2
    · exact ih (fun q hq => hd q (List.mem_append.mpr (Or.inl hq))) hxs c h1
    · rw [List.mem_singleton] at h2
      subst h2
      exact digit_eq_zero_of_val_zero c (hd c (by simp)) hx

theorem natDigits_digitsToNat (l : List Char) (hne : l ≠ [])
    (hd : ∀ c ∈ l, isDigitChar c = true)
    (hlead : l = ['0'] ∨ l.headD ' ' ≠ '0') :
    natDigits (digitsToNat l) = l := by
  induction l using List.reverseRecOn with
  | nil => exact absurd rfl hne
  | append_singleton xs x ih =>
    have hdx : isDigitChar x = true := hd x (by simp)
    have hvx : digitVal x < 10 := digitVal_lt x hdx
    cases hxs : xs with
    | nil =>
      subst hxs
      show natDigits (digitsToNat [x]) = [x]
      have hv : digitsToNat [x] = digitVal x := by
        show 10 * 0 + digitVal x = digitVal x
        omega
      rw [hv, natDigits_lt (digitVal x) hvx, digitChar_digitVal x hdx]
    | cons a b =>
      rw [← hxs]
      have hxsne : xs ≠ [] := by rw [hxs]; simp
      have hdxs : ∀ c ∈ xs, isDigitChar c = true :=
        fun c hc => hd c (List.mem_append.mpr (Or.inl hc))
      have hheadeq : (xs ++ [x]).headD ' ' = xs.headD ' ' :=
        headD_append_of_ne_nil xs [x] ' ' hxsne
      have hlead2 : xs.headD ' ' ≠ '0' := by
        rcases hlead with h1 | h2
        · exfalso
          rw [hxs] at h1
          simp at h1
        · rw [← hheadeq]
          exact h2
      have hvne : digitsToNat xs ≠ 0 := by
        intro hz
        have hall := all_zero_of_digitsToNat_zero xs hdxs hz
        have : xs.headD ' ' = '0' := by
          rw [hxs]
          exact hall a (by rw [hxs]; simp)
        exact hlead2 this
      rw [digitsToNat_append_singleton]
      have hge : ¬ 10 * digitsToNat xs + digitVal x < 10 := by omega
      rw [natDigits_ge _ hge]
      have hdiv : (10 * digitsToNat xs + digitVal x) / 10 = digitsToNat xs := by omega
      have hmod : (10 * digitsToNat xs + digitVal x) % 10 = digitVal x := by omega
      rw [hdiv, hmod, ih hxsne hdxs (Or.inr hlead2), digitChar_digitVal x hdx]

/-- Every canonical decimal representation of a number at most 255 is
accepted as an octet. -/
theorem isOctet_natDigits (n : Nat) (h : n ≤ 255) : isOctet (natDigits n) = true := by
  obtain ⟨a, b, hq⟩ : ∃ a b, natDigits n = a :: b := by
    cases hq : natDigits n with
    | nil => exact absurd hq (natDigits_ne_nil n)
    | cons a b => exact ⟨a, b, rfl⟩
  have h2 : (natDigits n).all isDigitChar = true :=
    List.all_eq_true.mpr (natDigits_all_digits n)
  have h3 : digitsToNat (natDigits n) ≤ 255 := by
    rw [digitsToNat_natDigits n]
    exact h
  by_cases hz : n = 0
  · subst hz
    have he : natDigits 0 = ['0'] := by
      rw [natDigits_lt 0 (by omega)]
      rfl
    rw [he]
    decide
  · have h4 : a ≠ '0' := by
      have hh := natDigits_headD_ne_zero n hz
      rw [hq] at hh
      simpa using hh
    unfold isOctet
    rw [hq] at h2 h3 ⊢
    simp [h2, h3, h4]

/-- Every accepted octet is the canonical decimal representation of a
number at most 255. -/
theorem isOctet_inv (p : List Char) (h : isOctet p = true) :
    ∃ n, n ≤ 255 ∧ p = natDigits n := by
  unfold isOctet at h
  simp only [Bool.and_eq_true, Bool.or_eq_true, Bool.not_eq_true', decide_eq_true_eq] at h
  obtain ⟨⟨⟨hne, hall⟩, hle⟩, hlead⟩ := h
  have hne2 : p ≠ [] := by
    cases p with
    | nil => simp at hne
    | cons a b => simp
  have hd : ∀ c ∈ p, isDigitChar c = true := List.all_eq_true.mp hall
  have hlead2 : p = ['0'] ∨ p.headD ' ' ≠ '0' := by
    rcases hlead with h1 | h2
    · cases p with
      | nil => simp at h1
      | cons a b =>
        cases b with
        | nil =>
          by_cases ha : a = '0'
          · subst ha
            exact Or.inl rfl
          · exact Or.inr (by simpa using ha)
        | cons a2 b2 => simp at h1
    · exact Or.inr (by simpa using h2)
  refine ⟨digitsToNat p, hle, ?_⟩
  rw [natDigits_digitsToNat p hne2 hd hlead2]

/-! Split and join lemmas. -/

theorem splitOnChar_ne_nil (sep : Char) (l : List Char) : splitOnChar sep l ≠ [] := by
  induction l with
  | nil => simp [splitOnChar]
  | cons c cs ih =>
    by_cases hc : c = sep
    · simp [splitOnChar, hc]
    · cases hq : splitOnChar sep cs with
      | nil => exact absurd hq ih
      | cons g gs => simp [splitOnChar, hc, hq]

theorem joinChar_cons_ne (sep : Char) (t : List Char) (ts : List (List Char)) (h : ts ≠ []) :
    joinChar sep (t :: ts) = t ++ sep :: joinChar sep ts := by
  cases ts with
  | nil => exact absurd rfl h
  | cons t2 ts2 => rfl

theorem joinChar_splitOnChar (sep : Char) (l : List Char) :
    joinChar sep (splitOnChar sep l) = l := by
  induction l with
  | nil => rfl
  | cons c cs ih =>
    by_cases hc : c = sep
    · subst hc
      rw [show splitOnChar c (c :: cs) = [] :: splitOnChar c cs by simp [splitOnChar],
        joinChar_cons_ne c [] (splitOnChar c cs) (splitOnChar_ne_nil c cs)]
      simp [ih]
    · obtain ⟨g, gs, hq⟩ : ∃ g gs, splitOnChar sep cs = g :: gs := by
        cases hq : splitOnChar sep cs with
        | nil => exact absurd hq (splitOnChar_ne_nil sep cs)
        | cons g gs => exact ⟨g, gs, rfl⟩
      rw [show splitOnChar sep (c :: cs) = (c :: g) :: gs by simp [splitOnChar, hc, hq]]
      cases gs with
      | nil =>
        show c :: g = c :: cs
        rw [hq] at ih
        simpa using ih
      | cons g2 gs2 =>
        rw [joinChar_cons_ne sep (c :: g) (g2 :: gs2) (by simp)]
        rw [hq, joinChar_cons_ne sep g (g2 :: gs2) (by simp)] at ih
        simpa using ih

theorem splitOnChar_sep_free (sep : Char) (l : List Char) (h : sep ∉ l) :
    splitOnChar sep l = [l] := by
  induction l with
  | nil => rfl
  | cons c cs ih =>
    have hc : ¬ c = sep := fun he => h (by simp [he])
    have hcs : sep ∉ cs := fun he => h (by simp [he])
    simp [splitOnChar, hc, ih hcs]

theorem mem_splitOnChar_sep_free (sep : Char) (l : List Char) :
    ∀ t ∈ splitOnChar sep l, sep ∉ t := by
  induction l with
  | nil =>
    intro t ht
    simp [splitOnChar] at ht
    simp [ht]
  | cons c cs ih =>
    intro t ht
    by_cases hc : c = sep
    · rw [show splitOnChar sep (c :: cs) = [] :: splitOnChar sep cs by
        simp [splitOnChar, hc]] at ht
      rcases List.mem_cons.mp ht with rfl | h2
      · simp
      · exact ih t h2
    · obtain ⟨g, gs, hq⟩ : ∃ g gs, splitOnChar sep cs = g :: gs := by
        cases hq : splitOnChar sep cs with
        | nil => exact absurd hq (splitOnChar_ne_nil sep cs)
        | cons g gs => exact ⟨g, gs, rfl⟩
      rw [show splitOnChar sep (c :: cs) = (c :: g) :: gs by simp [splitOnChar, hc, hq]] at ht
      rcases List.mem_cons.mp ht with rfl | h2
      · intro hmem
        rcases List.mem_cons.mp hmem with he | h3
        · exact hc he.symm
        · exact ih g (by rw [hq]; simp) h3
      · exact ih t (by rw [hq]; simp [h2])

theorem splitOnChar_append_sep (sep : Char) (t r : List Char) (h : sep ∉ t) :
    splitOnChar sep (t ++ sep :: r) = t :: splitOnChar sep r := by
  induction t with
  | nil => simp [splitOnChar]
  | cons a t2 ih =>
    have ha : ¬ a = sep := fun he => h (by simp [he])
    have ht2 : sep ∉ t2 := fun he => h (by simp [he])
    simp [splitOnChar, ha, ih ht2]

theorem splitOnChar_joinChar (sep : Char) (ts : List (List Char)) (hne : ts ≠ [])
    (hfree : ∀ t ∈ ts, sep ∉ t) :
    splitOnChar sep (joinChar sep ts) = ts := by
  induction ts with
  | nil => exact absurd rfl hne
  | cons t ts2 ih =>
    cases ts2 with
    | nil =>
      show splitOnChar sep t = [t]
      exact splitOnChar_sep_free sep t (hfree t (by simp))
    | cons t2 ts3 =>
      rw [joinChar_cons_ne sep t (t2 :: ts3) (by simp),
        splitOnChar_append_sep sep t (joinChar sep (t2 :: ts3)) (hfree t (by simp)),
        ih (by simp) (fun q hq => hfree q (by simp [hq]))]

theorem mem_joinChar (sep : Char) (ts : List (List Char)) (x : Char)
    (h : x ∈ joinChar sep ts) : x = sep ∨ ∃ t ∈ ts, x ∈ t := by
  induction ts with
  | nil => simp [joinChar] at h
  | cons t ts2 ih =>
    cases ts2 with
    | nil =>
      exact Or.inr ⟨t, by simp, h⟩
    | cons t2 ts3 =>
      rw [joinChar_cons_ne sep t (t2 :: ts3) (by simp)] at h
      rcases List.mem_append.mp h with h1 | h2
      · exact Or.inr ⟨t, by simp, h1⟩
      · rcases List.mem_cons.mp h2 with rfl | h3
        · exact Or.inl rfl
        · rcases ih h3 with h4 | ⟨q, hq, hx⟩
          · exact Or.inl h4
          · exact Or.inr ⟨q, by simp [hq], hx⟩

theorem pton4_inv (l : List Char) (h : pton4 l = true) :
    ∃ A B C D, splitOnChar '.' l = [A, B, C, D] ∧ isOctet A = true ∧ isOctet B = true ∧
      isOctet C = true ∧ isOctet D = true := by
  unfold pton4 at h
  rcases hs : splitOnChar '.' l with _ | ⟨A, _ | ⟨B, _ | ⟨C, _ | ⟨D, _ | ⟨E, rest⟩⟩⟩⟩⟩ <;>
      rw [hs] at h <;> simp at h
  exact ⟨A, B, C, D, rfl, h.1.1.1, h.1.1.2, h.1.2, h.2⟩

theorem isOctet_digits (p : List Char) (h : isOctet p = true) :
    ∀ c ∈ p, isDigitChar c = true := by
  unfold isOctet at h
  simp only [Bool.and_eq_true] at h
  exact List.all_eq_true.mp h.1.1.2

theorem pton4_chars (l : List Char) (h : pton4 l = true) :
    ∀ x ∈ l, isDigitChar x = true ∨ x = '.' := by
  obtain ⟨A, B, C, D, hs, hA, hB, hC, hD⟩ := pton4_inv l h
  intro x hx
  have hl : l = joinChar '.' [A, B, C, D] := by
    conv_lhs => rw [← joinChar_splitOnChar '.' l]
    rw [hs]
  rw [hl] at hx
  rcases mem_joinChar '.' [A, B, C, D] x hx with h1 | ⟨t, ht, hxt⟩
  · exact Or.inr h1
  · have hoct : isOctet t = true := by
      simp only [List.mem_cons, List.mem_singleton] at ht
      rcases ht with rfl | rfl | rfl | rfl | hf
      · exact hA
      · exact hB
      · exact hC
      · exact hD
      · simp at hf
    exact Or.inl (isOctet_digits t hoct x hxt)

theorem pton4_not_pton6 (l : List Char) (h : pton4 l = true) : pton6 l = false := by
  have hne : l ≠ [] := by
    rintro rfl
    exact absurd h (by decide)
  have hnc : ':' ∉ l := by
    intro hm
    rcases pton4_chars l h ':' hm with hd | he
    · exact absurd hd (by decide)
    · exact absurd he (by decide)
  unfold pton6
  rw [splitOnChar_sep_free ':' l hnc]
  exact pton6toks_single l hne

theorem pton4_iff_dottedQuad (l : List Char) : pton4 l = true ↔ IsDottedQuadLit l := by
  constructor
  · intro h
    obtain ⟨A, B, C, D, hs, hA, hB, hC, hD⟩ := pton4_inv l h
    obtain ⟨a, ha, hEA⟩ := isOctet_inv A hA
    obtain ⟨b, hb, hEB⟩ := isOctet_inv B hB
    obtain ⟨c, hc, hEC⟩ := isOctet_inv C hC
    obtain ⟨d, hd2, hED⟩ := isOctet_inv D hD
    refine ⟨a, b, c, d, ha, hb, hc, hd2, ?_⟩
    conv_lhs => rw [← joinChar_splitOnChar '.' l]
    rw [hs, hEA, hEB, hEC, hED]
    rfl
  · rintro ⟨a, b, c, d, ha, hb, hc, hd, rfl⟩
    have hdots : ∀ n : Nat, '.' ∉ natDigits n := by
      intro n hm
      exact digit_ne_dot '.' (natDigits_all_digits n '.' hm) rfl
    unfold pton4
    rw [splitOnChar_append_sep '.' _ _ (hdots a),
        splitOnChar_append_sep '.' _ _ (hdots b),
        splitOnChar_append_sep '.' _ _ (hdots c),
        splitOnChar_sep_free '.' _ (hdots d)]
    simp [isOctet_natDigits a ha, isOctet_natDigits b hb,
      isOctet_natDigits c hc, isOctet_natDigits d hd]

theorem pton6_iff_colonHex (l : List Char) : pton6 l = true ↔ IsColonHexLit l := by
  constructor
  · intro h
    exact ⟨splitOnChar ':' l, splitOnChar_ne_nil ':' l, mem_splitOnChar_sep_free ':' l, h,
      (joinChar_splitOnChar ':' l).symm⟩
  · rintro ⟨ts, hne, hfree, htoks, rfl⟩
    show pton6toks (splitOnChar ':' (joinChar ':' ts)) = true
    rw [splitOnChar_joinChar ':' ts hne hfree]
    exact htoks

/-- Claim C10: the classifier reports IPv4 exactly on valid dotted-quad
IPv4 literals, IPv6 exactly on valid colon-hex IPv6 literals, and no
string is classified as both.  The literal languages are stated
declaratively: a dotted quad is four canonical decimal numbers at most
255 joined by dots; a colon-hex literal is the colon join of a valid
token sequence. -/
theorem c10_classifier (s : String) :
    (is_ipv4 s = true ↔ IsDottedQuadLit s.data) ∧
    (is_ipv6 s = true ↔ IsColonHexLit s.data) ∧
    ¬(is_ipv4 s = true ∧ is_ipv6 s = true) := by
  refine ⟨pton4_iff_dottedQuad s.data, pton6_iff_colonHex s.data, ?_⟩
  rintro ⟨h4, h6⟩
  have hf : pton6 s.data = false := pton4_not_pton6 s.data h4
  rw [show is_ipv6 s = pton6 s.data from rfl, hf] at h6
  exact absurd h6 (by decide)
